import Mathlib

/-!
Verification of the fintablo-api request/response translation layer.

The development shallowly embeds the Python source:

* `models.to_api_dict` (entity → wire serialization),
* `base.BaseRepository._create_model` / `_create_models_from_response` /
  `_query_execute` / `find_by_id` / `delete` (wire → entity parsing,
  response-envelope normalization, failure collapsing),
* `base.QueryBuilder.build_params` (query flattening),
* `http_client.HttpClient._handle_response_errors` (status → typed failure),
* the urllib3 `Retry` configuration installed by `HttpClient.__init__`.

Python runtime values flowing through the codec are modelled by the
inductive type `Value`; Python `None` is `Value.vNull`, `datetime` objects
are `Value.vDate`, str-valued `Enum` members are `Value.vEnum`.
Date strings follow CPython's `_strptime`: its `%Y` matches exactly four
digits, while `%d`, `%m`, `%H`, `%M` match one or two digits and a blank
in the format matches a run of whitespace (`\s+`). The `%Y-%m-%d` and
`%d.%m.%Y` readers are only ever applied to 10-character strings (the
source's length dispatch pins this), and the only way those formats
consume exactly 10 characters is the fully padded form, so they are
modelled fixed-width; the `%d.%m.%Y %H:%M` reader models the flexible
widths directly. Digits are modelled as ASCII digits (`strptime`'s
acceptance of non-ASCII Unicode decimal digits is not modelled).
-/

namespace Fintablo

/-- A naive wall-clock date-time, the shallow embedding of Python's
`datetime.datetime` (microseconds are not modelled; the codec never
produces them and `strftime "%d.%m.%Y %H:%M"` drops them together with
the seconds). -/
structure DateTime where
  year : Nat
  month : Nat
  day : Nat
  hour : Nat
  minute : Nat
  second : Nat
  deriving DecidableEq, Repr

/-- Python `datetime` leap-year rule (proleptic Gregorian). -/
def isLeap (y : Nat) : Bool :=
  y % 4 == 0 && (y % 100 != 0 || y % 400 == 0)

/-- Number of days in a month, as validated by `datetime.__new__`. -/
def daysInMonth (y m : Nat) : Nat :=
  if m = 2 then (if isLeap y then 29 else 28)
  else if m = 4 ∨ m = 6 ∨ m = 9 ∨ m = 11 then 30
  else 31

/-- The range check `datetime` performs on construction
(`MINYEAR = 1`, `MAXYEAR = 9999`). -/
def validDate (y m d : Nat) : Bool :=
  1 ≤ y && y ≤ 9999 && 1 ≤ m && m ≤ 12 && 1 ≤ d && d ≤ daysInMonth y m

/-- Validity of a full `datetime` value. -/
def validDT (dt : DateTime) : Bool :=
  validDate dt.year dt.month dt.day && dt.hour ≤ 23 && dt.minute ≤ 59 && dt.second ≤ 59

/-- The decimal digit character for `n < 10`. -/
def digitChar (n : Nat) : Char := Char.ofNat (48 + n)

/-- Two-digit zero-padded rendering (`%02d` for values below 100). -/
def pad2chars (n : Nat) : List Char := [digitChar (n / 10), digitChar (n % 10)]

/-- Four-digit zero-padded rendering (`%04d`/`%Y` for values below 10000). -/
def pad4chars (n : Nat) : List Char :=
  [digitChar (n / 1000), digitChar (n / 100 % 10), digitChar (n / 10 % 10), digitChar (n % 10)]

/-- `value.strftime("%d.%m.%Y %H:%M")` on a valid `datetime` value:
zero-padded day, month, four-digit year, hour, minute; seconds dropped. -/
def formatApi (dt : DateTime) : String :=
  ⟨pad2chars dt.day ++ ['.'] ++ pad2chars dt.month ++ ['.'] ++ pad4chars dt.year
    ++ [' '] ++ pad2chars dt.hour ++ [':'] ++ pad2chars dt.minute⟩

/-- Numeric value of a digit character. -/
def digitVal (c : Char) : Option Nat :=
  if c.isDigit then some (c.toNat - 48) else none

/-- Read a two-digit decimal number. -/
def parse2 (a b : Char) : Option Nat := do
  let x ← digitVal a
  let y ← digitVal b
  pure (10 * x + y)

/-- Read a four-digit decimal number. -/
def parse4 (a b c d : Char) : Option Nat := do
  let x ← digitVal a
  let y ← digitVal b
  let z ← digitVal c
  let w ← digitVal d
  pure (1000 * x + 100 * y + 10 * z + w)

/-- The two-character day token of CPython's `%d` regex
`(3[0-1]|[1-2]\d|0[1-9]|[1-9]| [1-9])` when it consumes exactly two
characters: two digits, or a space followed by one digit (`" 5"`). The
excluded values (`"00"`, `" 0"`, `"32"`–`"99"`) all fail the callers'
`validDate` guard, which the regex's own range restrictions make
observationally equivalent. -/
def parseDay2 (d1 d2 : Char) : Option Nat :=
  if d1 = ' ' then digitVal d2 else parse2 d1 d2

/-- `datetime.strptime(value, "%Y-%m-%d")` on a 10-character string.
CPython's `%Y` matches exactly four digits and `%m` one or two, so the
only 10-character consumptions are `YYYY-MM-DD` and `YYYY-MM- D` (the
`%d` space-padded alternative); yields midnight of the parsed day. -/
def parseIso (s : String) : Option DateTime :=
  match s.data with
  | [y1, y2, y3, y4, h1, m1, m2, h2, d1, d2] =>
    if h1 = '-' ∧ h2 = '-' then
      match parse4 y1 y2 y3 y4, parse2 m1 m2, parseDay2 d1 d2 with
      | some y, some m, some d =>
        if validDate y m d then some ⟨y, m, d, 0, 0, 0⟩ else none
      | _, _, _ => none
    else none
  | _ => none

/-- `datetime.strptime(value, "%d.%m.%Y")` on a 10-character string:
the only 10-character consumptions are `dd.mm.YYYY` and `" d.mm.YYYY"`
(space-padded `%d`); yields midnight of the parsed day. -/
def parseRu10 (s : String) : Option DateTime :=
  match s.data with
  | [d1, d2, p1, m1, m2, p2, y1, y2, y3, y4] =>
    if p1 = '.' ∧ p2 = '.' then
      match parseDay2 d1 d2, parse2 m1 m2, parse4 y1 y2 y3 y4 with
      | some d, some m, some y =>
        if validDate y m d then some ⟨y, m, d, 0, 0, 0⟩ else none
      | _, _, _ => none
    else none
  | _ => none

/-- The character class Python's `re` module `\s` matches on `str`
(ASCII whitespace, the C1 separators, and the Unicode space category). -/
def pyIsSpace (c : Char) : Bool :=
  let n := c.toNat
  (9 ≤ n && n ≤ 13) || (28 ≤ n && n ≤ 31) || n == 32 || n == 133 || n == 160 ||
    n == 5760 || (8192 ≤ n && n ≤ 8202) || n == 8232 || n == 8233 || n == 8239 ||
    n == 8287 || n == 12288

/-- Split off the leading run of ASCII digits (what a digit group of the
`strptime` regex followed by a non-digit literal must consume). -/
def digitSpan : List Char → List Char × List Char
  | [] => ([], [])
  | c :: rest =>
    if c.isDigit then (c :: (digitSpan rest).1, (digitSpan rest).2)
    else ([], c :: rest)

/-- Split off the leading run of whitespace (the `\s+` a blank in the
`strptime` format compiles to). -/
def wsSpan : List Char → List Char × List Char
  | [] => ([], [])
  | c :: rest =>
    if pyIsSpace c then (c :: (wsSpan rest).1, (wsSpan rest).2)
    else ([], c :: rest)

/-- Decimal value of a digit run. -/
def numOf (ds : List Char) : Nat :=
  ds.foldl (fun acc c => 10 * acc + (c.toNat - 48)) 0

/-- The digit form of the `%d` token: a run of one or two digits at the
head of the string; returns the day value and the unconsumed remainder. -/
def dayDigits (l : List Char) : Option (Nat × List Char) :=
  if 1 ≤ (digitSpan l).1.length ∧ (digitSpan l).1.length ≤ 2 then
    some (numOf (digitSpan l).1, (digitSpan l).2)
  else none

/-- The `%d` token at the head of the string: on a leading space, the
`" [1-9]"` alternative of CPython's day regex (a space followed by
exactly one digit; the bad value `" 0"` is left to the validity guard),
otherwise a run of one or two digits. -/
def parseDayTok (l : List Char) : Option (Nat × List Char) :=
  match l with
  | c0 :: c :: r =>
    if c0 = ' ' then (if c.isDigit then some (c.toNat - 48, r) else none)
    else dayDigits (c0 :: c :: r)
  | l => dayDigits l

/-- Month, year, whitespace, hour and minute of
`"%d.%m.%Y %H:%M"` after the day value and its trailing `.` have been
consumed. -/
def ru16Tail (d : Nat) (r2 : List Char) : Option DateTime :=
  match digitSpan r2 with
  | (ms, '.' :: r4) =>
    match digitSpan r4 with
    | (ys, r5) =>
      match wsSpan r5 with
      | (ws, r6) =>
        match digitSpan r6 with
        | (hs, ':' :: r8) =>
          match digitSpan r8 with
          | (mins, []) =>
            if 1 ≤ ms.length ∧ ms.length ≤ 2 ∧ ys.length = 4 ∧ 1 ≤ ws.length ∧
                1 ≤ hs.length ∧ hs.length ≤ 2 ∧ 1 ≤ mins.length ∧ mins.length ≤ 2 then
              if validDate (numOf ys) (numOf ms) d = true ∧
                  numOf hs ≤ 23 ∧ numOf mins ≤ 59 then
                some ⟨numOf ys, numOf ms, d, numOf hs, numOf mins, 0⟩
              else none
            else none
          | _ => none
        | _ => none
  | _ => none

/-- `datetime.strptime(value, "%d.%m.%Y %H:%M")`. CPython's `_strptime`
compiles this format to
`(3[0-1]|[1-2]\d|0[1-9]|[1-9]| [1-9])\.(1[0-2]|0[1-9]|[1-9])\.(\d\d\d\d)\s+(2[0-3]|[0-1]\d|\d):([0-5]\d|\d)`
anchored at both ends: the day is one or two digits or a space-padded
single digit, month, hour and minute one or two digits (not
necessarily zero-padded), the year exactly four digits, and the blank
matches a whitespace run. Because every digit group is followed by a
non-digit (a separator or the end), it must consume the whole maximal
digit run, so the splits below are exact; the regex's range
restrictions and the `datetime()` constructor check both land in the
validity guard, either failure keeping the raw string upstream. -/
def parseRu16 (s : String) : Option DateTime :=
  match parseDayTok s.data with
  | some (d, '.' :: r2) => ru16Tail d r2
  | _ => none

/-- Python runtime values flowing through the codec (JSON values plus the
native `datetime` and str-`Enum` objects that live in entity fields). -/
inductive Value where
  | vNull
  | vBool (b : Bool)
  | vInt (n : Int)
  | vStr (s : String)
  | vDate (dt : DateTime)
  | vEnum (s : String)
  | vList (xs : List Value)
  | vObj (kvs : List (String × Value))

/-- Python truthiness (`if item:`): `None`, `False`, `0`, `""`, `[]`,
and the empty dict are falsy. -/
def pyTruthy : Value → Bool
  | .vNull => false
  | .vBool b => b
  | .vInt n => n != 0
  | .vStr s => !s.data.isEmpty
  | .vDate _ => true
  | .vEnum _ => true
  | .vList xs => !xs.isEmpty
  | .vObj kvs => !kvs.isEmpty

mutual

/-- Python `==` on the embedded values. A str-valued `Enum` member
(`GroupEnum(str, Enum)`) compares equal to its underlying token, which is
how the source's enum fields behave under `==`. -/
def pyEq : Value → Value → Bool
  | .vNull, .vNull => true
  | .vBool a, .vBool b => a == b
  | .vInt a, .vInt b => a == b
  | .vStr a, .vStr b => a == b
  | .vEnum a, .vEnum b => a == b
  | .vEnum a, .vStr b => a == b
  | .vStr a, .vEnum b => a == b
  | .vDate a, .vDate b => a == b
  | .vList a, .vList b => pyEqL a b
  | .vObj a, .vObj b => pyEqKV a b
  | _, _ => false

/-- Pointwise `pyEq` on lists. -/
def pyEqL : List Value → List Value → Bool
  | [], [] => true
  | x :: xs, y :: ys => pyEq x y && pyEqL xs ys
  | _, _ => false

/-- Pointwise `pyEq` on key-value lists. -/
def pyEqKV : List (String × Value) → List (String × Value) → Bool
  | [], [] => true
  | (k1, v1) :: xs, (k2, v2) :: ys => k1 == k2 && pyEq v1 v2 && pyEqKV xs ys
  | _, _ => false

end

/-- First-match lookup in a key-value list (Python `dict` access; the
dicts the codec receives come from JSON, whose keys are unique). -/
def lookupKV : List (String × Value) → String → Option Value
  | [], _ => none
  | (k, v) :: rest, key => if k = key then some v else lookupKV rest key

/-- Character membership in a string (`"-" in value` for a one-character
needle). -/
def hasChar (s : String) (c : Char) : Bool :=
  s.data.any (fun x => x == c)

/-- The date-string dispatch of `BaseRepository._create_model` for the
`"date"` key: 10 characters containing `-` → `%Y-%m-%d`; else containing
`.` with length ≥ 10 → `%d.%m.%Y` when exactly 10 characters, otherwise
`%d.%m.%Y %H:%M`; any parse failure keeps the raw string. -/
def convertDateStr (s : String) : Value :=
  if s.data.length = 10 ∧ hasChar s '-' then
    match parseIso s with
    | some dt => .vDate dt
    | none => .vStr s
  else if hasChar s '.' ∧ 10 ≤ s.data.length then
    if s.data.length = 10 then
      match parseRu10 s with
      | some dt => .vDate dt
      | none => .vStr s
    else
      match parseRu16 s with
      | some dt => .vDate dt
      | none => .vStr s
  else .vStr s

/-- One iteration of `_create_model`'s conversion loop: only the key
`"date"` with a truthy string value is touched (`if key == "date" and
value and isinstance(value, str)`); every other entry passes through. -/
def convertEntry (kv : String × Value) : String × Value :=
  match kv with
  | (k, v) =>
    if k = "date" then
      match v with
      | .vStr s => if s.data.isEmpty then (k, .vStr s) else (k, convertDateStr s)
      | v => (k, v)
    else (k, v)

/-- The full `converted_data` construction of `_create_model`. -/
def convertWire (data : List (String × Value)) : List (String × Value) :=
  data.map convertEntry

/-- An entity instance: the dataclass's declared fields in declaration
order, each holding a runtime value (`vNull` = Python `None`, the
uniform dataclass default). -/
abbrev Entity := List (String × Value)

/-- A model class: declared field names with their defaults, in
declaration order (`None` for scalar fields, `[]` for the
`default_factory=list` fields). -/
abbrev Model := List (String × Value)

/-- `self.model_class(**converted_data)`: constructing a dataclass from
keyword arguments succeeds iff every keyword is a declared field, and
fields without a keyword take their declared default. `_create_model`
re-raises the construction failure (after printing diagnostics). -/
def constructModel (m : Model) (data : List (String × Value)) : Except String Entity :=
  if data.all (fun kv => (m.map Prod.fst).contains kv.1) then
    .ok (m.map (fun fd => (fd.1, (lookupKV data fd.1).getD fd.2)))
  else
    .error "unexpected keyword argument"

/-- `BaseRepository._create_model` on a wire dict (the typed-model path;
`model_class == dict` short-circuits before any conversion). -/
def create_model (m : Model) (data : List (String × Value)) : Except String Entity :=
  constructModel m (convertWire data)

/-- `_create_model` applied to an arbitrary response item: a non-dict
item fails (`data.items()` raises `AttributeError`). -/
def createModelValue (m : Model) (v : Value) : Except String Entity :=
  match v with
  | .vObj kvs => create_model m kvs
  | _ => .error "AttributeError"

/-- The shared comprehension `[self._create_model(item) for item in items
if item]`: falsy items are skipped, and the first construction failure
aborts the whole comprehension. -/
def createModels (m : Model) : List Value → Except String (List Entity)
  | [] => .ok []
  | v :: rest =>
    if pyTruthy v then do
      let e ← createModelValue m v
      let es ← createModels m rest
      .ok (e :: es)
    else createModels m rest

/-- Python iteration over the object stored under `items`/`results`
(`for item in items`): lists iterate their elements, dicts their keys,
strings their characters; other values raise `TypeError`. -/
def pyIter : Value → Except String (List Value)
  | .vList xs => .ok xs
  | .vObj kvs => .ok (kvs.map (fun kv => .vStr kv.1))
  | .vStr s => .ok (s.data.map (fun c => .vStr (String.mk [c])))
  | _ => .error "TypeError: not iterable"

/-- Envelope normalization of `_create_models_from_response` (the
`find_all` path): a dict with an `"items"` key contributes that value's
iteration; any other dict, and any non-list value, is wrapped as a
one-element list; a list is taken as-is. -/
def responseItems (data : Value) : Except String (List Value) :=
  match data with
  | .vObj kvs =>
    match lookupKV kvs "items" with
    | some v => pyIter v
    | none => .ok [data]
  | .vList xs => .ok xs
  | v => .ok [v]

/-- `BaseRepository._create_models_from_response`, i.e. the parsing
performed by `find_all`. -/
def createModelsFromResponse (m : Model) (data : Value) : Except String (List Entity) := do
  let items ← responseItems data
  createModels m items

/-- Envelope normalization of `_query_execute`:
`data.get("items", data.get("results", [data]))` on a dict, a list
as-is, any other value wrapped. -/
def queryExecuteItems (data : Value) : Except String (List Value) :=
  match data with
  | .vObj kvs =>
    match lookupKV kvs "items" with
    | some v => pyIter v
    | none =>
      match lookupKV kvs "results" with
      | some v => pyIter v
      | none => .ok [data]
  | .vList xs => .ok xs
  | v => .ok [v]

/-- The parsing performed by `_query_execute` after the GET. -/
def queryExecuteModels (m : Model) (data : Value) : Except String (List Entity) := do
  let items ← queryExecuteItems data
  createModels m items

/-- Top-level value conversion of `models.to_api_dict`: a `datetime`
becomes its `%d.%m.%Y %H:%M` rendering, an `Enum` member its underlying
token; everything else — numbers, strings, booleans, and whole nested
lists/dicts — is left as `dataclasses.asdict` produced it. -/
def serializeVal : Value → Value
  | .vDate dt => .vStr (formatApi dt)
  | .vEnum s => .vStr s
  | v => v

/-- `models.to_api_dict`: walk the declared fields in order, skip values
that are `None`, convert the survivors at top level. -/
def to_api_dict (e : Entity) : List (String × Value) :=
  match e with
  | [] => []
  | (k, v) :: rest =>
    match v with
    | .vNull => to_api_dict rest
    | v => (k, serializeVal v) :: to_api_dict rest

/-- The exception classes of `exceptions.py` that the pipeline raises,
plus `forbidden` for the declared-but-never-raised `ForbiddenException`. -/
inductive ErrKind where
  | authentication
  | notFound
  | validation
  | rateLimit
  | server
  | generic
  | forbidden
  | timeoutFail
  | connectionFail
  deriving DecidableEq, Repr

/-- A raised `FinTabloException` (or subclass): its kind, message,
status code, validation `errors` payload, and rate-limit retry hint. -/
structure FinErr where
  kind : ErrKind
  message : Value
  statusCode : Option Nat
  errors : Value
  retryAfter : Option String

/-- A completed HTTP response as `_handle_response_errors` sees it:
status code, raw text, the JSON value the text parses to (`none` when
`response.json()` raises, in particular on an empty body), and the
`Retry-After` header. -/
structure Response where
  status : Nat
  text : String
  jsonBody : Option Value
  retryAfter : Option String

/-- Outcome of one call to `_handle_response_errors`: return normally,
raise a typed failure, or raise a plain Python error (`AttributeError`
on `.get` of a non-dict JSON body, `UnboundLocalError`/`NameError` on
the 422 branch when `error_data` was never bound). -/
inductive RaiseResult where
  | ok
  | typed (e : FinErr)
  | pyError (msg : String)

/-- The status-code dispatch of `_handle_response_errors`, after
`error_message` has been computed. `errorData` is the parsed JSON body
when `response.json()` succeeded (`None` when it raised, leaving
`error_data` unbound). -/
def dispatchError (r : Response) (errorData : Option (List (String × Value))) (msg : Value) :
    RaiseResult :=
  if r.status = 401 then .typed ⟨.authentication, msg, some r.status, .vList [], none⟩
  else if r.status = 404 then .typed ⟨.notFound, msg, some r.status, .vList [], none⟩
  else if r.status = 422 then
    match errorData with
    | none => .pyError "NameError"
    | some kvs =>
      let errs := (lookupKV kvs "errors").getD (.vList [])
      .typed ⟨.validation, msg, some r.status,
        if pyTruthy errs then errs else .vList [], none⟩
  else if r.status = 429 then .typed ⟨.rateLimit, msg, some r.status, .vList [], r.retryAfter⟩
  else if 500 ≤ r.status ∧ r.status < 600 then
    .typed ⟨.server, msg, some r.status, .vList [], none⟩
  else .typed ⟨.generic, msg, some r.status, .vList [], none⟩

/-- `HttpClient._handle_response_errors`: under 400 return normally;
otherwise compute `error_message` (the body's `message` field when the
body parses as a JSON object, defaulting to `"Unknown error"`; else the
raw text; else `"HTTP <status>"`) and dispatch on the status code. -/
def handle_response_errors (r : Response) : RaiseResult :=
  if r.status < 400 then .ok
  else
    match r.jsonBody with
    | some (.vObj kvs) =>
      dispatchError r (some kvs) ((lookupKV kvs "message").getD (.vStr "Unknown error"))
    | some _ => .pyError "AttributeError"
    | none =>
      dispatchError r none
        (.vStr (if r.text = "" then "HTTP " ++ toString r.status else r.text))

/-- Network-level failures `_make_request` catches and re-raises typed. -/
inductive NetFailure where
  | timeout
  | connection
  | requestOther
  deriving DecidableEq, Repr

/-- What happened to one HTTP request at the transport: a network-level
failure, or a completed response. -/
inductive Outcome where
  | netFail (k : NetFailure)
  | completed (r : Response)

/-- Result of one `HttpClient.get/post/put/delete` call: the parsed
body, a raised `FinTabloException`, or a raised plain Python error. -/
inductive CallResult where
  | ok (body : Value)
  | raised (e : FinErr)
  | pyRaised (msg : String)

/-- Whether the call returned normally. -/
def CallResult.isOk : CallResult → Bool
  | .ok _ => true
  | _ => false

/-- One `HttpClient` verb call: `_make_request` (error mapping included)
followed by `response.json() if response.content else {}`. -/
def httpCall (o : Outcome) : CallResult :=
  match o with
  | .netFail .timeout => .raised ⟨.timeoutFail, .vStr "Request timed out", none, .vList [], none⟩
  | .netFail .connection =>
    .raised ⟨.connectionFail, .vStr "Connection error", none, .vList [], none⟩
  | .netFail .requestOther => .raised ⟨.generic, .vStr "Request failed", none, .vList [], none⟩
  | .completed r =>
    match handle_response_errors r with
    | .ok =>
      if r.text = "" then .ok (.vObj [])
      else
        match r.jsonBody with
        | some v => .ok v
        | none => .pyRaised "JSONDecodeError"
    | .typed e => .raised e
    | .pyError m => .pyRaised m

/-- `BaseRepository.find_by_id`: GET then `_create_model`, with a
catch-all `except Exception: return None`. -/
def find_by_id (m : Model) (o : Outcome) : Option Entity :=
  match httpCall o with
  | .ok v =>
    match createModelValue m v with
    | .ok e => some e
    | .error _ => none
  | _ => none

/-- `BaseRepository.delete`: DELETE then `return True`, with a catch-all
`except Exception: return False`. -/
def delete (o : Outcome) : Bool :=
  (httpCall o).isOk

/-- `allowed_methods=["HEAD", "GET", "OPTIONS"]` of the installed
urllib3 `Retry`. -/
def retryAllowedMethods : List String := ["HEAD", "GET", "OPTIONS"]

/-- `status_forcelist=[429, 500, 502, 503, 504]` of the installed
urllib3 `Retry`. -/
def statusForcelist : List Nat := [429, 500, 502, 503, 504]

/-- `max_retries: int = 3`, the default `total` handed to `Retry`. -/
def defaultMaxRetries : Nat := 3

/-- The urllib3 `Retry` loop at the transport boundary, driven by the
script of statuses the server would answer successive attempts with.
An attempt whose status is in the forcelist, for an allowed method,
consumes one unit of the `total` budget and retries; exhausting the
budget raises `MaxRetryError` (`none`). Returns the final delivered
status and the number of attempts made. -/
def retryLoop (method : String) : List Nat → Nat → Option Nat × Nat
  | [], _ => (none, 0)
  | s :: rest, budget =>
    if retryAllowedMethods.contains method && statusForcelist.contains s then
      match budget with
      | 0 => (none, 1)
      | b + 1 =>
        let r := retryLoop method rest b
        (r.1, r.2 + 1)
    else (some s, 1)

/-- `QueryBuilder`'s accumulated state. -/
structure QueryState where
  filters : List (String × Value)
  ordering : List String
  limitValue : Option Int
  offsetValue : Option Int
  expandFields : List String

/-- A fresh `QueryBuilder` (`repository.query()`). -/
def emptyQuery : QueryState := ⟨[], [], none, none, []⟩

/-- Insert into a Python dict rendered as an ordered key-value list:
an existing key is overwritten in place, a new key is appended. -/
def dictInsert : List (String × Value) → String × Value → List (String × Value)
  | [], kv => [kv]
  | (k, v) :: rest, kv =>
    if k = kv.1 then (k, kv.2) :: rest else (k, v) :: dictInsert rest kv

/-- `dict.update` with a sequence of key-value pairs. -/
def dictUpdate (d : List (String × Value)) (kvs : List (String × Value)) :
    List (String × Value) :=
  kvs.foldl dictInsert d

/-- `QueryBuilder.filter(**kwargs)`: `self._filters.update(kwargs)`. -/
def qFilter (q : QueryState) (kvs : List (String × Value)) : QueryState :=
  { q with filters := dictUpdate q.filters kvs }

/-- `QueryBuilder.order_by(field, ascending)`: append `field:asc|desc`. -/
def qOrderBy (q : QueryState) (f : String) (ascending : Bool) : QueryState :=
  { q with ordering := q.ordering ++ [f ++ ":" ++ (if ascending then "asc" else "desc")] }

/-- `QueryBuilder.limit`. -/
def qLimit (q : QueryState) (n : Int) : QueryState :=
  { q with limitValue := some n }

/-- `QueryBuilder.offset`. -/
def qOffset (q : QueryState) (n : Int) : QueryState :=
  { q with offsetValue := some n }

/-- `QueryBuilder.expand(*fields)`. -/
def qExpand (q : QueryState) (fs : List String) : QueryState :=
  { q with expandFields := q.expandFields ++ fs }

/-- `",".join` -/
def joinComma : List String → String
  | [] => ""
  | [s] => s
  | s :: rest => s ++ "," ++ joinComma rest

/-- `QueryBuilder.build_params`: filters merged into a fresh dict, then
`order` (if any ordering), `limit`/`offset` (if set), `expand` (if any). -/
def build_params (q : QueryState) : List (String × Value) :=
  let p := dictUpdate [] q.filters
  let p := if q.ordering.isEmpty then p else dictInsert p ("order", .vStr (joinComma q.ordering))
  let p := match q.limitValue with
    | some n => dictInsert p ("limit", .vInt n)
    | none => p
  let p := match q.offsetValue with
    | some n => dictInsert p ("offset", .vInt n)
    | none => p
  let p := if q.expandFields.isEmpty then p
    else dictInsert p ("expand", .vStr (joinComma q.expandFields))
  p

/-- Drop sub-minute precision, as `strftime("%d.%m.%Y %H:%M")` does. -/
def truncSec (dt : DateTime) : DateTime :=
  { dt with second := 0 }

/-- Normalization a serialize/parse round trip applies to an entity:
date/time values lose their sub-minute precision. -/
def normSecV : Value → Value
  | .vDate dt => .vDate (truncSec dt)
  | v => v

/-- Field-wise `normSecV`. -/
def normalizeSeconds (e : Entity) : Entity :=
  e.map (fun kv => (kv.1, normSecV kv.2))

/-- The wire form `YYYY-MM-DD`. -/
def isoStr (y m d : Nat) : String :=
  ⟨pad4chars y ++ ['-'] ++ pad2chars m ++ ['-'] ++ pad2chars d⟩

/-- Entity column of a (name, default, value) field description list. -/
def entOf (L : List (String × Value × Value)) : Entity :=
  L.map (fun x => (x.1, x.2.2))

/-- Model column of a (name, default, value) field description list. -/
def mdlOf (L : List (String × Value × Value)) : Model :=
  L.map (fun x => (x.1, x.2.1))

theorem digitChar_isDigit {a : Nat} (h : a < 10) : (digitChar a).isDigit = true := by
  interval_cases a <;> decide

theorem digitVal_digitChar {a : Nat} (h : a < 10) : digitVal (digitChar a) = some a := by
  interval_cases a <;> decide

theorem digitChar_beq_false {a : Nat} (h : a < 10) {c : Char} (hc : c.isDigit = false) :
    (digitChar a == c) = false := by
  cases hbe : (digitChar a == c) with
  | false => rfl
  | true =>
    exfalso
    have hce : digitChar a = c := eq_of_beq hbe
    rw [← hce] at hc
    rw [digitChar_isDigit h] at hc
    exact absurd hc (by decide)

theorem parse2_pad {n : Nat} (h : n < 100) :
    parse2 (digitChar (n / 10)) (digitChar (n % 10)) = some n := by
  have h1 : n / 10 < 10 := by omega
  have h2 : n % 10 < 10 := by omega
  simp [parse2, digitVal_digitChar h1, digitVal_digitChar h2]
  omega

theorem parse4_pad {n : Nat} (h : n < 10000) :
    parse4 (digitChar (n / 1000)) (digitChar (n / 100 % 10)) (digitChar (n / 10 % 10))
      (digitChar (n % 10)) = some n := by
  have h1 : n / 1000 < 10 := by omega
  have h2 : n / 100 % 10 < 10 := by omega
  have h3 : n / 10 % 10 < 10 := by omega
  have h4 : n % 10 < 10 := by omega
  simp [parse4, digitVal_digitChar h1, digitVal_digitChar h2, digitVal_digitChar h3,
    digitVal_digitChar h4]
  omega

theorem daysInMonth_le_31 (y m : Nat) : daysInMonth y m ≤ 31 := by
  unfold daysInMonth
  split_ifs <;> omega

theorem validDate_bounds {y m d : Nat} (h : validDate y m d = true) :
    1 ≤ y ∧ y ≤ 9999 ∧ 1 ≤ m ∧ m ≤ 12 ∧ 1 ≤ d ∧ d ≤ 31 := by
  have hd := daysInMonth_le_31 y m
  simp [validDate] at h
  omega

theorem validDT_parts {dt : DateTime} (h : validDT dt = true) :
    validDate dt.year dt.month dt.day = true ∧ dt.hour ≤ 23 ∧ dt.minute ≤ 59 ∧
      dt.second ≤ 59 := by
  simp [validDT] at h
  exact ⟨h.1.1.1, h.1.1.2, h.1.2, h.2⟩

theorem validDT_bounds {dt : DateTime} (h : validDT dt = true) :
    dt.year < 10000 ∧ dt.month < 100 ∧ dt.day < 100 ∧ dt.hour < 100 ∧ dt.minute < 100 := by
  obtain ⟨hvd, hh, hmi, _⟩ := validDT_parts h
  have := validDate_bounds hvd
  omega

theorem formatApi_data (dt : DateTime) :
    (formatApi dt).data =
      [digitChar (dt.day / 10), digitChar (dt.day % 10), '.',
       digitChar (dt.month / 10), digitChar (dt.month % 10), '.',
       digitChar (dt.year / 1000), digitChar (dt.year / 100 % 10),
       digitChar (dt.year / 10 % 10), digitChar (dt.year % 10), ' ',
       digitChar (dt.hour / 10), digitChar (dt.hour % 10), ':',
       digitChar (dt.minute / 10), digitChar (dt.minute % 10)] := by
  simp [formatApi, pad2chars, pad4chars]

theorem digitChar_toNat {a : Nat} (h : a < 10) : (digitChar a).toNat = 48 + a := by
  interval_cases a <;> decide

theorem digitChar_not_space {a : Nat} (h : a < 10) : pyIsSpace (digitChar a) = false := by
  interval_cases a <;> decide

theorem digitSpan_cons_digit {c : Char} (hc : c.isDigit = true) (rest : List Char) :
    digitSpan (c :: rest) = (c :: (digitSpan rest).1, (digitSpan rest).2) := by
  rw [digitSpan, if_pos hc]

theorem digitSpan_cons_nondigit {c : Char} (hc : c.isDigit = false) (rest : List Char) :
    digitSpan (c :: rest) = ([], c :: rest) := by
  rw [digitSpan, if_neg (by simp [hc])]

theorem digitSpan_two {a b : Nat} (ha : a < 10) (hb : b < 10) {c : Char}
    (hc : c.isDigit = false) (rest : List Char) :
    digitSpan (digitChar a :: digitChar b :: c :: rest) =
      ([digitChar a, digitChar b], c :: rest) := by
  rw [digitSpan_cons_digit (digitChar_isDigit ha), digitSpan_cons_digit (digitChar_isDigit hb),
    digitSpan_cons_nondigit hc]

theorem digitSpan_two_end {a b : Nat} (ha : a < 10) (hb : b < 10) :
    digitSpan [digitChar a, digitChar b] = ([digitChar a, digitChar b], []) := by
  rw [digitSpan_cons_digit (digitChar_isDigit ha), digitSpan_cons_digit (digitChar_isDigit hb)]
  rfl

theorem digitSpan_four {a b c d : Nat} (ha : a < 10) (hb : b < 10) (hc : c < 10)
    (hd : d < 10) {e : Char} (he : e.isDigit = false) (rest : List Char) :
    digitSpan (digitChar a :: digitChar b :: digitChar c :: digitChar d :: e :: rest) =
      ([digitChar a, digitChar b, digitChar c, digitChar d], e :: rest) := by
  rw [digitSpan_cons_digit (digitChar_isDigit ha), digitSpan_cons_digit (digitChar_isDigit hb),
    digitSpan_cons_digit (digitChar_isDigit hc), digitSpan_cons_digit (digitChar_isDigit hd),
    digitSpan_cons_nondigit he]

theorem wsSpan_space_digit {a : Nat} (ha : a < 10) (rest : List Char) :
    wsSpan (' ' :: digitChar a :: rest) = ([' '], digitChar a :: rest) := by
  rw [wsSpan, if_pos (by decide), wsSpan, if_neg (by simp [digitChar_not_space ha])]

theorem numOf_two {a b : Nat} (ha : a < 10) (hb : b < 10) :
    numOf [digitChar a, digitChar b] = 10 * a + b := by
  simp [numOf, digitChar_toNat ha, digitChar_toNat hb]

theorem numOf_four {a b c d : Nat} (ha : a < 10) (hb : b < 10) (hc : c < 10) (hd : d < 10) :
    numOf [digitChar a, digitChar b, digitChar c, digitChar d] =
      1000 * a + 100 * b + 10 * c + d := by
  simp [numOf, digitChar_toNat ha, digitChar_toNat hb, digitChar_toNat hc, digitChar_toNat hd]
  ring

theorem digitChar_ne_space {a : Nat} (h : a < 10) : digitChar a ≠ ' ' := by
  interval_cases a <;> decide

theorem parseDay2_pad {n : Nat} (h : n < 100) :
    parseDay2 (digitChar (n / 10)) (digitChar (n % 10)) = some n := by
  rw [parseDay2, if_neg (digitChar_ne_space (by omega))]
  exact parse2_pad h

theorem parseDayTok_digits {a b : Nat} (ha : a < 10) (hb : b < 10) {c : Char}
    (hc : c.isDigit = false) (rest : List Char) :
    parseDayTok (digitChar a :: digitChar b :: c :: rest) =
      some (10 * a + b, c :: rest) := by
  rw [parseDayTok, if_neg (digitChar_ne_space ha), dayDigits, digitSpan_two ha hb hc]
  simp [numOf_two ha hb]

theorem parseRu16_formatApi {dt : DateTime} (h : validDT dt = true) :
    parseRu16 (formatApi dt) = some (truncSec dt) := by
  obtain ⟨hy, hm, hd, hh, hmi⟩ := validDT_bounds h
  obtain ⟨hvd, hh23, hmi59, _⟩ := validDT_parts h
  have hday : 10 * (dt.day / 10) + dt.day % 10 = dt.day := by omega
  have s2 := digitSpan_two (show dt.month / 10 < 10 by omega)
    (show dt.month % 10 < 10 by omega) (show ('.' : Char).isDigit = false by decide)
    (digitChar (dt.year / 1000) :: digitChar (dt.year / 100 % 10) ::
      digitChar (dt.year / 10 % 10) :: digitChar (dt.year % 10) :: ' ' ::
      digitChar (dt.hour / 10) :: digitChar (dt.hour % 10) :: ':' ::
      digitChar (dt.minute / 10) :: [digitChar (dt.minute % 10)])
  have s3 := digitSpan_four (show dt.year / 1000 < 10 by omega)
    (show dt.year / 100 % 10 < 10 by omega) (show dt.year / 10 % 10 < 10 by omega)
    (show dt.year % 10 < 10 by omega) (show (' ' : Char).isDigit = false by decide)
    (digitChar (dt.hour / 10) :: digitChar (dt.hour % 10) :: ':' ::
      digitChar (dt.minute / 10) :: [digitChar (dt.minute % 10)])
  have s4 := wsSpan_space_digit (show dt.hour / 10 < 10 by omega)
    (digitChar (dt.hour % 10) :: ':' :: digitChar (dt.minute / 10) ::
      [digitChar (dt.minute % 10)])
  have s5 := digitSpan_two (show dt.hour / 10 < 10 by omega)
    (show dt.hour % 10 < 10 by omega) (show (':' : Char).isDigit = false by decide)
    (digitChar (dt.minute / 10) :: [digitChar (dt.minute % 10)])
  have s6 := digitSpan_two_end (show dt.minute / 10 < 10 by omega)
    (show dt.minute % 10 < 10 by omega)
  have nm : numOf [digitChar (dt.month / 10), digitChar (dt.month % 10)] = dt.month := by
    rw [numOf_two (by omega) (by omega)]; omega
  have ny : numOf [digitChar (dt.year / 1000), digitChar (dt.year / 100 % 10),
      digitChar (dt.year / 10 % 10), digitChar (dt.year % 10)] = dt.year := by
    rw [numOf_four (by omega) (by omega) (by omega) (by omega)]; omega
  have nh : numOf [digitChar (dt.hour / 10), digitChar (dt.hour % 10)] = dt.hour := by
    rw [numOf_two (by omega) (by omega)]; omega
  have nn : numOf [digitChar (dt.minute / 10), digitChar (dt.minute % 10)] = dt.minute := by
    rw [numOf_two (by omega) (by omega)]; omega
  rw [parseRu16, formatApi_data,
    parseDayTok_digits (show dt.day / 10 < 10 by omega) (show dt.day % 10 < 10 by omega)
      (show ('.' : Char).isDigit = false by decide), hday]
  simp only [ru16Tail, s2, s3, s4, s5, s6, nm, ny, nh, nn]
  rw [if_pos (by simp), if_pos ⟨hvd, hh23, hmi59⟩]
  rfl

theorem hasChar_formatApi_dash {dt : DateTime} (h : validDT dt = true) :
    hasChar (formatApi dt) '-' = false := by
  obtain ⟨hy, hm, hd, hh, hmi⟩ := validDT_bounds h
  rw [hasChar, formatApi_data]
  simp only [List.any_cons, List.any_nil, Bool.or_eq_false_iff]
  repeat' apply And.intro
  all_goals
    first
    | decide
    | exact digitChar_beq_false (by omega) (by decide)

theorem hasChar_formatApi_dot (dt : DateTime) :
    hasChar (formatApi dt) '.' = true := by
  rw [hasChar, formatApi_data]
  simp

theorem formatApi_length (dt : DateTime) : (formatApi dt).data.length = 16 := by
  rw [formatApi_data]
  rfl

theorem convertDateStr_formatApi {dt : DateTime} (h : validDT dt = true) :
    convertDateStr (formatApi dt) = .vDate (truncSec dt) := by
  rw [convertDateStr]
  rw [if_neg (fun hc => by rw [formatApi_length] at hc; exact absurd hc.1 (by decide))]
  rw [if_pos ⟨hasChar_formatApi_dot dt, by rw [formatApi_length]; decide⟩]
  rw [if_neg (by rw [formatApi_length]; decide)]
  rw [parseRu16_formatApi h]

theorem isoStr_data (y m d : Nat) :
    (isoStr y m d).data =
      [digitChar (y / 1000), digitChar (y / 100 % 10), digitChar (y / 10 % 10),
       digitChar (y % 10), '-', digitChar (m / 10), digitChar (m % 10), '-',
       digitChar (d / 10), digitChar (d % 10)] := by
  simp [isoStr, pad2chars, pad4chars]

theorem parseIso_isoStr {y m d : Nat} (h : validDate y m d = true) :
    parseIso (isoStr y m d) = some ⟨y, m, d, 0, 0, 0⟩ := by
  obtain ⟨_, hy, _, hm, _, hd⟩ := validDate_bounds h
  rw [parseIso, isoStr_data]
  simp only [parse4_pad (show y < 10000 by omega), parse2_pad (show m < 100 by omega),
    parseDay2_pad (show d < 100 by omega)]
  simp [h]

theorem convertDateStr_isoStr {y m d : Nat} (h : validDate y m d = true) :
    convertDateStr (isoStr y m d) = .vDate ⟨y, m, d, 0, 0, 0⟩ := by
  rw [convertDateStr]
  rw [if_pos ⟨by simp [isoStr_data], by rw [hasChar, isoStr_data]; simp⟩]
  rw [parseIso_isoStr h]

mutual

theorem pyEq_refl : ∀ v : Value, pyEq v v = true
  | .vNull => rfl
  | .vBool b => by simp [pyEq]
  | .vInt n => by simp [pyEq]
  | .vStr s => by simp [pyEq]
  | .vDate dt => by simp [pyEq]
  | .vEnum s => by simp [pyEq]
  | .vList xs => by rw [pyEq]; exact pyEqL_refl xs
  | .vObj kvs => by rw [pyEq]; exact pyEqKV_refl kvs

theorem pyEqL_refl : ∀ xs : List Value, pyEqL xs xs = true
  | [] => rfl
  | x :: xs => by rw [pyEqL, pyEq_refl x, pyEqL_refl xs]; rfl

theorem pyEqKV_refl : ∀ kvs : List (String × Value), pyEqKV kvs kvs = true
  | [] => rfl
  | (k, v) :: kvs => by rw [pyEqKV, pyEq_refl v, pyEqKV_refl kvs]; simp

end

theorem pyEqKV_map_map {α : Type} (L : List α) (f g : α → String × Value)
    (h : ∀ x ∈ L, (f x).1 = (g x).1 ∧ pyEq (f x).2 (g x).2 = true) :
    pyEqKV (L.map f) (L.map g) = true := by
  induction L with
  | nil => rfl
  | cons x xs ih =>
    obtain ⟨h1, h2⟩ := h x (by simp)
    have hfx : f x = ((f x).1, (f x).2) := rfl
    have hgx : g x = ((g x).1, (g x).2) := rfl
    simp only [List.map_cons]
    rw [hfx, hgx, pyEqKV, h1, h2]
    simp only [beq_self_eq_true, Bool.and_true, Bool.true_and]
    exact ih (fun y hy => h y (by simp [hy]))

theorem lookupKV_none_of_not_mem {l : List (String × Value)} {k : String}
    (h : k ∉ l.map Prod.fst) : lookupKV l k = none := by
  induction l with
  | nil => rfl
  | cons kv rest ih =>
    rw [lookupKV]
    rw [if_neg (fun he => h (by simp [he]))]
    exact ih (fun hm => h (by simp [hm]))

theorem convertEntry_fst (kv : String × Value) : (convertEntry kv).1 = kv.1 := by
  obtain ⟨k, v⟩ := kv
  cases v <;> simp only [convertEntry] <;> split_ifs <;> rfl

theorem to_api_dict_cons_null (k : String) (rest : Entity) :
    to_api_dict ((k, Value.vNull) :: rest) = to_api_dict rest := rfl

theorem to_api_dict_cons (k : String) (v : Value) (rest : Entity) (hv : v ≠ Value.vNull) :
    to_api_dict ((k, v) :: rest) = (k, serializeVal v) :: to_api_dict rest := by
  cases v <;> first | exact absurd rfl hv | rfl

theorem to_api_dict_keys_sub (e : Entity) :
    ∀ kv ∈ convertWire (to_api_dict e), kv.1 ∈ e.map Prod.fst := by
  induction e with
  | nil => intro kv hkv; simp [convertWire, to_api_dict] at hkv
  | cons p rest ih =>
    intro kv hkv
    obtain ⟨k, v⟩ := p
    by_cases hv : v = Value.vNull
    · rw [hv, to_api_dict_cons_null] at hkv
      exact List.mem_cons_of_mem _ (ih kv hkv)
    · rw [to_api_dict_cons k v rest hv, convertWire, List.map_cons] at hkv
      rcases List.mem_cons.mp hkv with he | hm
      · rw [he, convertEntry_fst]; simp
      · exact List.mem_cons_of_mem _ (ih kv hm)

/-- The value a set field comes back as after serialize, convert, and
lookup (`none` when the field was unset and hence omitted). -/
def roundVal (k : String) : Value → Option Value
  | .vNull => none
  | v => some (convertEntry (k, serializeVal v)).2

theorem roundVal_of_ne_null (k : String) {v : Value} (hv : v ≠ Value.vNull) :
    roundVal k v = some (convertEntry (k, serializeVal v)).2 := by
  cases v <;> first | exact absurd rfl hv | rfl

theorem lookupKV_cons (p : String × Value) (rest : List (String × Value)) (key : String) :
    lookupKV (p :: rest) key = if p.1 = key then some p.2 else lookupKV rest key := by
  obtain ⟨k, v⟩ := p
  rfl

theorem lookup_convert_none {e : Entity} {k : String} (h : k ∉ e.map Prod.fst) :
    lookupKV (convertWire (to_api_dict e)) k = none := by
  refine lookupKV_none_of_not_mem (fun hmem => h ?_)
  obtain ⟨kv, hkv, hfst⟩ := List.mem_map.mp hmem
  exact hfst ▸ to_api_dict_keys_sub e kv hkv

theorem lookup_roundtrip (e : Entity) (hnd : (e.map Prod.fst).Nodup) (k : String) :
    lookupKV (convertWire (to_api_dict e)) k = (lookupKV e k).bind (roundVal k) := by
  induction e with
  | nil => rfl
  | cons p rest ih =>
    obtain ⟨k', v'⟩ := p
    simp only [List.map_cons, List.nodup_cons] at hnd
    obtain ⟨hk', hndr⟩ := hnd
    by_cases hv : v' = Value.vNull
    · subst hv
      rw [to_api_dict_cons_null, lookupKV_cons]
      by_cases hkk : k' = k
      · subst hkk
        rw [if_pos rfl]
        exact lookup_convert_none hk' ▸ (lookup_convert_none hk').trans rfl
      · rw [if_neg hkk]
        exact ih hndr
    · rw [to_api_dict_cons k' v' rest hv, convertWire, List.map_cons,
        lookupKV_cons, lookupKV_cons, convertEntry_fst]
      by_cases hkk : k' = k
      · subst hkk
        rw [if_pos rfl, if_pos rfl]
        simp only [Option.bind_some]
        exact (roundVal_of_ne_null k' hv).symm
      · rw [if_neg hkk, if_neg hkk]
        exact ih hndr

theorem lookup_entOf {L : List (String × Value × Value)}
    (hnd : (L.map (fun x => x.1)).Nodup) {x : String × Value × Value} (hx : x ∈ L) :
    lookupKV (entOf L) x.1 = some x.2.2 := by
  induction L with
  | nil => simp at hx
  | cons y ys ih =>
    simp only [List.map_cons, List.nodup_cons] at hnd
    obtain ⟨hy, hndr⟩ := hnd
    rw [entOf, List.map_cons, lookupKV_cons]
    rcases List.mem_cons.mp hx with he | hm
    · subst he
      rw [if_pos rfl]
    · have hne : y.1 ≠ x.1 := fun he => hy (he ▸ List.mem_map.mpr ⟨x, hm, rfl⟩)
      rw [if_neg hne]
      exact ih hndr hm

theorem convertEntry_ne_date {n : String} (hn : n ≠ "date") (w : Value) :
    convertEntry (n, w) = (n, w) := by
  cases w <;> simp only [convertEntry] <;> rw [if_neg hn]

theorem formatApi_ne_empty (dt : DateTime) : (formatApi dt).data.isEmpty = false := by
  rw [formatApi_data]
  rfl

theorem roundVal_correct {n : String} {v : Value}
    (hnodate : n ≠ "date" → ∀ dt, v ≠ Value.vDate dt)
    (hdate : n = "date" → v = Value.vNull ∨ ∃ dt, v = Value.vDate dt ∧ validDT dt = true)
    (hv : v ≠ Value.vNull) :
    pyEq (convertEntry (n, serializeVal v)).2 (normSecV v) = true := by
  by_cases hn : n = "date"
  · subst hn
    rcases hdate rfl with hnull | ⟨dt, hvd, hva⟩
    · exact absurd hnull hv
    · subst hvd
      show pyEq (convertEntry ("date", Value.vStr (formatApi dt))).2 (normSecV (.vDate dt)) = true
      simp only [convertEntry, if_pos rfl, formatApi_ne_empty, Bool.false_eq_true, if_false,
        convertDateStr_formatApi hva, normSecV]
      exact pyEq_refl _
  · rw [convertEntry_ne_date hn]
    cases v with
    | vNull => exact absurd rfl hv
    | vDate dt => exact absurd rfl (hnodate hn dt)
    | vEnum s => simp [serializeVal, normSecV, pyEq]
    | vBool b => exact pyEq_refl _
    | vInt m => exact pyEq_refl _
    | vStr s => exact pyEq_refl _
    | vList xs => exact pyEq_refl _
    | vObj kvs => exact pyEq_refl _

theorem entOf_keys (L : List (String × Value × Value)) :
    (entOf L).map Prod.fst = L.map (fun x => x.1) := by
  simp [entOf, List.map_map, Function.comp]

theorem mdlOf_keys (L : List (String × Value × Value)) :
    (mdlOf L).map Prod.fst = L.map (fun x => x.1) := by
  simp [mdlOf, List.map_map, Function.comp]

theorem create_model_roundtrip (L : List (String × Value × Value))
    (hnd : (L.map (fun x => x.1)).Nodup)
    (hdef : ∀ x ∈ L, x.2.2 = Value.vNull → x.2.1 = Value.vNull)
    (hnodate : ∀ x ∈ L, x.1 ≠ "date" → ∀ dt, x.2.2 ≠ Value.vDate dt)
    (hdate : ∀ x ∈ L, x.1 = "date" →
      x.2.2 = Value.vNull ∨ ∃ dt, x.2.2 = Value.vDate dt ∧ validDT dt = true) :
    ∃ e, create_model (mdlOf L) (to_api_dict (entOf L)) = Except.ok e ∧
      pyEqKV e (normalizeSeconds (entOf L)) = true := by
  have hall : (convertWire (to_api_dict (entOf L))).all
      (fun kv => ((mdlOf L).map Prod.fst).contains kv.1) = true := by
    rw [List.all_eq_true]
    intro kv hkv
    have hmem : kv.1 ∈ (entOf L).map Prod.fst := to_api_dict_keys_sub _ kv hkv
    rw [mdlOf_keys, ← entOf_keys]
    exact List.elem_eq_true_of_mem hmem
  refine ⟨(mdlOf L).map
    (fun fd => (fd.1, (lookupKV (convertWire (to_api_dict (entOf L))) fd.1).getD fd.2)),
    ?_, ?_⟩
  · rw [create_model, constructModel, if_pos hall]
  · rw [mdlOf, List.map_map, normalizeSeconds, entOf, List.map_map]
    refine pyEqKV_map_map L _ _ (fun x hx => ⟨rfl, ?_⟩)
    show pyEq ((lookupKV (convertWire (to_api_dict (entOf L))) x.1).getD x.2.1)
      (normSecV x.2.2) = true
    rw [lookup_roundtrip (entOf L) (by rw [entOf_keys]; exact hnd) x.1,
      lookup_entOf hnd hx]
    by_cases hv : x.2.2 = Value.vNull
    · have h1 : x.2.1 = Value.vNull := hdef x hx hv
      rw [hv, h1]
      rfl
    · show pyEq ((roundVal x.1 x.2.2).getD x.2.1) (normSecV x.2.2) = true
      rw [roundVal_of_ne_null x.1 hv, Option.getD_some]
      exact roundVal_correct (hnodate x hx) (hdate x hx) hv

/-- The `Employee` dataclass of `models.py`: field names with their
defaults (`None` everywhere except `positions`, whose default is `[]`). -/
def employeeModel : Model :=
  [("id", .vNull), ("name", .vNull), ("date", .vNull), ("positions", .vList []),
   ("currency", .vNull), ("regularfix", .vNull), ("regularfee", .vNull),
   ("regulartax", .vNull), ("inn", .vNull), ("hired", .vNull), ("fired", .vNull),
   ("comment", .vNull)]

/-- An `Employee` with every field set except `id`, whose string-typed
`date` field holds a string in `dd.mm.YYYY HH:mm` shape. -/
def employeeEnt : Entity :=
  [("id", .vNull), ("name", .vStr "A"), ("date", .vStr "01.02.2023 03:04"),
   ("positions", .vList [.vStr "dev"]), ("currency", .vStr "RUB"),
   ("regularfix", .vInt 1), ("regularfee", .vInt 2), ("regulartax", .vInt 3),
   ("inn", .vStr "7700000000"), ("hired", .vStr "2020-01-01"),
   ("fired", .vStr "2021-01-01"), ("comment", .vStr "c")]

/-- A full `Transaction` field description (name, default, value): every
field set except `id`, with a `datetime` carrying seconds in `date`. -/
def transactionRT : List (String × Value × Value) :=
  [("id", .vNull, .vNull),
   ("externalId", .vNull, .vInt 5),
   ("value", .vNull, .vInt 1500),
   ("moneybagId", .vNull, .vInt 2),
   ("group", .vNull, .vEnum "income"),
   ("value2", .vNull, .vInt 300),
   ("moneybag2Id", .vNull, .vInt 3),
   ("parentId", .vNull, .vInt 4),
   ("description", .vNull, .vStr "desc"),
   ("date", .vNull, .vDate ⟨2023, 5, 12, 13, 45, 30⟩),
   ("timestamp", .vNull, .vStr "2023-05-12 13:45:30"),
   ("isPlan", .vNull, .vBool false),
   ("categoryId", .vNull, .vInt 6),
   ("partnerId", .vNull, .vInt 7),
   ("directionId", .vNull, .vInt 8),
   ("dealId", .vNull, .vInt 9),
   ("obligationId", .vNull, .vInt 10),
   ("factMonth", .vNull, .vStr "2023-05"),
   ("spreadMonthes", .vList [], .vList [.vStr "2023-05", .vStr "2023-06"]),
   ("nds", .vNull, .vInt 20),
   ("obtainingId", .vNull, .vInt 11),
   ("course", .vNull, .vInt 1)]

/-- C1 (amended): `parse(serialize(E))` restores every field of an
entity whose unset fields (such as the absent `id`) have default `None`,
provided no field other than `date` holds a date/time value and the
`date` field holds a valid date/time value (or is unset); the `date`
field comes back normalized to minute precision, and str-`Enum` tokens
come back as their underlying strings (equal under Python `==`).
Moreover a wire date `YYYY-MM-DD` parses to midnight of that calendar
date and re-serializes as `dd.mm.YYYY 00:00`. -/
theorem roundtrip_parse_serialize :
    (∀ L : List (String × Value × Value),
      (L.map (fun x => x.1)).Nodup →
      (∀ x ∈ L, x.2.2 = Value.vNull → x.2.1 = Value.vNull) →
      (∀ x ∈ L, x.1 ≠ "date" → ∀ dt, x.2.2 ≠ Value.vDate dt) →
      (∀ x ∈ L, x.1 = "date" →
        x.2.2 = Value.vNull ∨ ∃ dt, x.2.2 = Value.vDate dt ∧ validDT dt = true) →
      ∃ e, create_model (mdlOf L) (to_api_dict (entOf L)) = Except.ok e ∧
        pyEqKV e (normalizeSeconds (entOf L)) = true) ∧
    (∀ y m d : Nat, validDate y m d = true →
      convertDateStr (isoStr y m d) = Value.vDate ⟨y, m, d, 0, 0, 0⟩ ∧
      formatApi ⟨y, m, d, 0, 0, 0⟩ =
        String.mk (pad2chars d ++ ['.'] ++ pad2chars m ++ ['.'] ++ pad4chars y
          ++ [' ', '0', '0', ':', '0', '0'])) := by
  constructor
  · exact create_model_roundtrip
  · intro y m d h
    refine ⟨convertDateStr_isoStr h, ?_⟩
    have h0 : pad2chars 0 = ['0', '0'] := by decide
    simp [formatApi, h0, List.append_assoc]

/-- C1 counterexample: an `Employee` with all fields set except `id`
does not round-trip: its string-typed `date` field holds
`"01.02.2023 03:04"`, which parse turns into a `datetime` value, so the
field is not restored (not even up to minute-precision normalization). -/
theorem roundtrip_counterexample :
    create_model employeeModel (to_api_dict employeeEnt) =
      Except.ok
        [("id", .vNull), ("name", .vStr "A"), ("date", .vDate ⟨2023, 2, 1, 3, 4, 0⟩),
         ("positions", .vList [.vStr "dev"]), ("currency", .vStr "RUB"),
         ("regularfix", .vInt 1), ("regularfee", .vInt 2), ("regulartax", .vInt 3),
         ("inn", .vStr "7700000000"), ("hired", .vStr "2020-01-01"),
         ("fired", .vStr "2021-01-01"), ("comment", .vStr "c")] ∧
    (∀ e, create_model employeeModel (to_api_dict employeeEnt) = Except.ok e →
      pyEqKV e employeeEnt = false ∧ pyEqKV e (normalizeSeconds employeeEnt) = false) := by
  constructor
  · rfl
  · intro e he
    have : e = [("id", .vNull), ("name", .vStr "A"), ("date", .vDate ⟨2023, 2, 1, 3, 4, 0⟩),
        ("positions", .vList [.vStr "dev"]), ("currency", .vStr "RUB"),
        ("regularfix", .vInt 1), ("regularfee", .vInt 2), ("regulartax", .vInt 3),
        ("inn", .vStr "7700000000"), ("hired", .vStr "2020-01-01"),
        ("fired", .vStr "2021-01-01"), ("comment", .vStr "c")] := by
      have h0 : Except.ok (ε := String) e = Except.ok _ := he.symm.trans rfl
      exact Except.ok.inj h0
    rw [this]
    exact ⟨rfl, rfl⟩

/-- C1 witness: the amended round-trip theorem applied to a concrete,
fully populated `Transaction`, and the `YYYY-MM-DD` part applied to
`2023-01-02`. -/
theorem roundtrip_witness :
    (∃ e, create_model (mdlOf transactionRT) (to_api_dict (entOf transactionRT)) =
        Except.ok e ∧ pyEqKV e (normalizeSeconds (entOf transactionRT)) = true) ∧
    convertDateStr (isoStr 2023 1 2) = Value.vDate ⟨2023, 1, 2, 0, 0, 0⟩ := by
  constructor
  · refine roundtrip_parse_serialize.1 transactionRT (by decide) ?_ ?_ ?_
    · intro x hx
      fin_cases hx <;> simp
    · intro x hx
      fin_cases hx <;> intro h <;> simp_all
    · intro x hx
      fin_cases hx <;> intro h <;>
        first
          | exact absurd h (by decide)
          | exact Or.inr ⟨⟨2023, 5, 12, 13, 45, 30⟩, rfl, by decide⟩
  · exact (roundtrip_parse_serialize.2 2023 1 2 (by decide)).1

theorem serializeVal_ne_null {v : Value} (hv : v ≠ Value.vNull) :
    serializeVal v ≠ Value.vNull := by
  cases v <;> first | exact absurd rfl hv | simp [serializeVal]

/-- A `Deal`-shaped entity whose opaque `jobs` collection contains a
nested `None` and a nested `datetime`. -/
def dealEnt : Entity :=
  [("id", .vNull), ("name", .vStr "D"),
   ("jobs", .vList [.vObj [("note", .vNull), ("when", .vDate ⟨2023, 5, 12, 13, 45, 0⟩)]])]

/-- C5 (amended): `to_api_dict` walks every declared field, omits fields
whose value is `None` (and emits nothing else), converts date/time and
enum values to strings at the top level, leaves numbers, strings and
booleans unchanged — and passes nested sequences and mappings through
unchanged, without applying the omission/conversion rules inside them. -/
theorem serialize_rules :
    (∀ e : Entity, ∀ kv ∈ to_api_dict e, kv.2 ≠ Value.vNull) ∧
    (∀ (e : Entity) (k : String) (v : Value), (k, v) ∈ e → v ≠ Value.vNull →
      (k, serializeVal v) ∈ to_api_dict e) ∧
    (∀ e : Entity, ∀ kv ∈ to_api_dict e,
      ∃ v, (kv.1, v) ∈ e ∧ v ≠ Value.vNull ∧ kv.2 = serializeVal v) ∧
    (∀ dt, serializeVal (.vDate dt) = .vStr (formatApi dt)) ∧
    (∀ s, serializeVal (.vEnum s) = .vStr s) ∧
    (∀ n : Int, serializeVal (.vInt n) = .vInt n) ∧
    (∀ s, serializeVal (.vStr s) = .vStr s) ∧
    (∀ b, serializeVal (.vBool b) = .vBool b) ∧
    (∀ xs, serializeVal (.vList xs) = .vList xs) ∧
    (∀ kvs, serializeVal (.vObj kvs) = .vObj kvs) := by
  refine ⟨?_, ?_, ?_, fun _ => rfl, fun _ => rfl, fun _ => rfl, fun _ => rfl,
    fun _ => rfl, fun _ => rfl, fun _ => rfl⟩
  · intro e
    induction e with
    | nil => intro kv hkv; simp [to_api_dict] at hkv
    | cons p rest ih =>
      intro kv hkv
      obtain ⟨k, v⟩ := p
      by_cases hv : v = Value.vNull
      · rw [hv, to_api_dict_cons_null] at hkv
        exact ih kv hkv
      · rw [to_api_dict_cons k v rest hv] at hkv
        rcases List.mem_cons.mp hkv with he | hm
        · rw [he]
          exact serializeVal_ne_null hv
        · exact ih kv hm
  · intro e
    induction e with
    | nil => intro k v hm; simp at hm
    | cons p rest ih =>
      intro k v hm hv
      obtain ⟨k', v'⟩ := p
      rcases List.mem_cons.mp hm with he | hmm
      · obtain ⟨he1, he2⟩ := Prod.mk.injEq .. ▸ he
        subst he1; subst he2
        rw [to_api_dict_cons k v rest hv]
        exact List.mem_cons_self _ _
      · by_cases hv' : v' = Value.vNull
        · rw [hv', to_api_dict_cons_null]
          exact ih k v hmm hv
        · rw [to_api_dict_cons k' v' rest hv']
          exact List.mem_cons_of_mem _ (ih k v hmm hv)
  · intro e
    induction e with
    | nil => intro kv hkv; simp [to_api_dict] at hkv
    | cons p rest ih =>
      intro kv hkv
      obtain ⟨k', v'⟩ := p
      by_cases hv' : v' = Value.vNull
      · rw [hv', to_api_dict_cons_null] at hkv
        obtain ⟨v, h1, h2, h3⟩ := ih kv hkv
        exact ⟨v, List.mem_cons_of_mem _ h1, h2, h3⟩
      · rw [to_api_dict_cons k' v' rest hv'] at hkv
        rcases List.mem_cons.mp hkv with he | hm
        · exact ⟨v', by rw [he]; exact List.mem_cons_self _ _, hv', by rw [he]⟩
        · obtain ⟨v, h1, h2, h3⟩ := ih kv hm
          exact ⟨v, List.mem_cons_of_mem _ h1, h2, h3⟩

/-- C5 counterexample: serializing a `Deal`-shaped entity passes the
nested `jobs` structure through untouched — the nested `None` is not
omitted and the nested `datetime` is not converted to a string, against
the claim that the omission/conversion rules apply recursively. -/
theorem serialize_counterexample :
    to_api_dict dealEnt =
      [("name", .vStr "D"),
       ("jobs", .vList [.vObj [("note", .vNull),
         ("when", .vDate ⟨2023, 5, 12, 13, 45, 0⟩)]])] ∧
    (match lookupKV (to_api_dict dealEnt) "jobs" with
      | some (.vList [.vObj kvs]) => lookupKV kvs "note"
      | _ => none) = some Value.vNull :=
  ⟨rfl, rfl⟩

/-- C5 witness: the amended serialization rules applied to the concrete
`Deal`-shaped entity. -/
theorem serialize_rules_witness :
    ("name", serializeVal (.vStr "D")) ∈ to_api_dict dealEnt ∧
    (∀ kv ∈ to_api_dict dealEnt, kv.2 ≠ Value.vNull) :=
  ⟨serialize_rules.2.1 dealEnt "name" (.vStr "D") (by simp [dealEnt])
      (fun h => Value.noConfusion h),
   serialize_rules.1 dealEnt⟩

/-- The `Category` dataclass of `models.py`: field names and defaults. -/
def categoryModel : Model :=
  [("id", .vNull), ("name", .vNull), ("parentId", .vNull), ("group", .vNull),
   ("type", .vNull), ("pnlType", .vNull), ("description", .vNull), ("isBuiltIn", .vNull)]

/-- A `Category` parsed from a wire dict that only carries `id`. -/
def categoryWithId (n : Int) : Entity :=
  [("id", .vInt n), ("name", .vNull), ("parentId", .vNull), ("group", .vNull),
   ("type", .vNull), ("pnlType", .vNull), ("description", .vNull), ("isBuiltIn", .vNull)]

/-- C2 (amended): `find_all`'s normalization treats the `items`
envelope, a bare list, and a bare single object uniformly, and the
query-execution path (`_query_execute`) additionally unwraps the
`results` envelope, agreeing on all four shapes; but `find_all` itself
does not unwrap `results` — it wraps such a response as a single bare
object (see the counterexample). -/
theorem findall_envelope :
    (∀ (m : Model) (xs : List Value),
      createModelsFromResponse m (.vObj [("items", .vList xs)]) = createModels m xs) ∧
    (∀ (m : Model) (xs : List Value),
      createModelsFromResponse m (.vList xs) = createModels m xs) ∧
    (∀ (m : Model) (kvs : List (String × Value)), lookupKV kvs "items" = none →
      createModelsFromResponse m (.vObj kvs) = createModels m [.vObj kvs]) ∧
    (∀ xs : List Value, queryExecuteItems (.vObj [("items", .vList xs)]) = .ok xs) ∧
    (∀ xs : List Value, queryExecuteItems (.vObj [("results", .vList xs)]) = .ok xs) ∧
    (∀ xs : List Value, queryExecuteItems (.vList xs) = .ok xs) ∧
    (∀ kvs : List (String × Value), lookupKV kvs "items" = none →
      lookupKV kvs "results" = none →
      queryExecuteItems (.vObj kvs) = .ok [.vObj kvs]) := by
  refine ⟨fun m xs => rfl, fun m xs => rfl, ?_, fun xs => rfl, fun xs => rfl,
    fun xs => rfl, ?_⟩
  · intro m kvs h
    rw [createModelsFromResponse, responseItems, h]
    rfl
  · intro kvs h1 h2
    rw [queryExecuteItems, h1, h2]

/-- C2 counterexample: on a `results`-shaped response, `find_all` does
not unwrap the list — it treats the whole envelope as one bare object,
and typed-model construction then fails on the unexpected `results`
keyword, while the same two items under an `items` envelope parse to
two entities. -/
theorem findall_envelope_counterexample :
    createModelsFromResponse categoryModel
        (.vObj [("results", .vList [.vObj [("id", .vInt 1)], .vObj [("id", .vInt 2)]])]) =
      Except.error "unexpected keyword argument" ∧
    createModelsFromResponse categoryModel
        (.vObj [("items", .vList [.vObj [("id", .vInt 1)], .vObj [("id", .vInt 2)]])]) =
      Except.ok [categoryWithId 1, categoryWithId 2] :=
  ⟨rfl, rfl⟩

/-- C2 witness: the amended envelope normalization applied to concrete
responses carrying two `Category` items. -/
theorem findall_envelope_witness :
    createModelsFromResponse categoryModel
        (.vObj [("id", .vInt 7)]) =
      createModels categoryModel [.vObj [("id", .vInt 7)]] ∧
    queryExecuteItems (.vObj [("id", .vInt 7)]) = .ok [.vObj [("id", .vInt 7)]] :=
  ⟨findall_envelope.2.2.1 categoryModel [("id", .vInt 7)] rfl,
   findall_envelope.2.2.2.2.2.2 [("id", .vInt 7)] rfl rfl⟩

/-- C9: the shared parsing comprehension drops falsy items (Python
`None`, empty dicts, empty lists, `0`, `""`, `False`) and parses only
the truthy ones; `[{"id": 1}, None, {"id": 2}]` yields exactly the two
parsed entities. -/
theorem findall_drops_falsy :
    (∀ (m : Model) (xs : List Value),
      createModels m xs = createModels m (xs.filter pyTruthy)) ∧
    (∀ (m : Model) (xs : List Value),
      createModelsFromResponse m (.vList xs) = createModels m (xs.filter pyTruthy)) ∧
    createModelsFromResponse categoryModel
        (.vList [.vObj [("id", .vInt 1)], .vNull, .vObj [("id", .vInt 2)]]) =
      Except.ok [categoryWithId 1, categoryWithId 2] := by
  have hmain : ∀ (m : Model) (xs : List Value),
      createModels m xs = createModels m (xs.filter pyTruthy) := by
    intro m xs
    induction xs with
    | nil => rfl
    | cons x rest ih =>
      by_cases hx : pyTruthy x = true
      · rw [List.filter_cons_of_pos hx, createModels, createModels, hx, ih]
      · rw [List.filter_cons_of_neg (by simp [hx]), createModels,
          if_neg (by simp [hx]), ih]
  exact ⟨hmain, fun m xs => hmain m xs, rfl⟩

/-- C10: only the literal key `"date"` receives date handling (and its
`strptime` accepts non-padded digit widths, e.g. `"1.2.2023 3:4"`, and
the space-padded day, e.g. `"2023-12- 5"`) — every
other key's value reaches entity construction unchanged (so string
fields like `startDate`, `factMonth` or `timestamp` stay raw strings),
and for `"date"` a string matching no accepted format is kept verbatim;
the conversion step itself always produces a value and never fails. -/
theorem date_key_only :
    (∀ (k : String) (v : Value), k ≠ "date" → convertEntry (k, v) = (k, v)) ∧
    (∀ data : List (String × Value), (convertWire data).map Prod.fst = data.map Prod.fst) ∧
    (∀ s : String, convertEntry ("date", .vStr s) = ("date", .vStr s) ∨
      ∃ dt, convertEntry ("date", .vStr s) = ("date", .vDate dt)) ∧
    (∀ s : String, parseIso s = none → parseRu10 s = none → parseRu16 s = none →
      convertEntry ("date", .vStr s) = ("date", .vStr s)) ∧
    convertEntry ("startDate", .vStr "2023-01-02") = ("startDate", .vStr "2023-01-02") ∧
    convertEntry ("factMonth", .vStr "2023-05") = ("factMonth", .vStr "2023-05") ∧
    convertEntry ("timestamp", .vStr "2023-05-12 13:45:30") =
      ("timestamp", .vStr "2023-05-12 13:45:30") ∧
    convertEntry ("date", .vStr "1.2.2023 3:4") =
      ("date", .vDate ⟨2023, 2, 1, 3, 4, 0⟩) ∧
    convertEntry ("date", .vStr "2023-12- 5") =
      ("date", .vDate ⟨2023, 12, 5, 0, 0, 0⟩) := by
  have hcases : ∀ s : String, convertDateStr s = .vStr s ∨
      ∃ dt, convertDateStr s = .vDate dt := by
    intro s
    rw [convertDateStr]
    split_ifs
    · cases hp : parseIso s with
      | none => exact Or.inl rfl
      | some dt => exact Or.inr ⟨dt, rfl⟩
    · cases hp : parseRu10 s with
      | none => exact Or.inl rfl
      | some dt => exact Or.inr ⟨dt, rfl⟩
    · cases hp : parseRu16 s with
      | none => exact Or.inl rfl
      | some dt => exact Or.inr ⟨dt, rfl⟩
    · exact Or.inl rfl
  refine ⟨fun k v hk => convertEntry_ne_date hk v, ?_, ?_, ?_, rfl, rfl, rfl, rfl, rfl⟩
  · intro data
    induction data with
    | nil => rfl
    | cons kv rest ih =>
      rw [convertWire, List.map_cons, List.map_cons, convertEntry_fst, List.map_cons]
      rw [convertWire] at ih
      rw [ih]
  · intro s
    by_cases hs : s.data.isEmpty = true
    · exact Or.inl (by simp only [convertEntry, if_pos rfl, hs]; rfl)
    · have h1 : convertEntry ("date", .vStr s) = ("date", convertDateStr s) := by
        simp only [convertEntry, if_pos rfl, hs]
        simp [hs]
      rcases hcases s with hc | ⟨dt, hc⟩
      · exact Or.inl (by rw [h1, hc])
      · exact Or.inr ⟨dt, by rw [h1, hc]⟩
  · intro s h1 h2 h3
    have hds : convertDateStr s = .vStr s := by
      rw [convertDateStr]
      split_ifs <;> simp [h1, h2, h3]
    by_cases hs : s.data.isEmpty = true
    · simp only [convertEntry, if_pos rfl, hs]
      rfl
    · simp only [convertEntry, if_pos rfl, hs]
      simp [hs, hds]

/-- C10 witness: the key-dispatch theorem applied at concrete inputs —
a non-`date` key is untouched and an unmatched `date` string is kept. -/
theorem date_key_only_witness :
    convertEntry ("endDate", .vInt 3) = ("endDate", .vInt 3) ∧
    convertEntry ("date", .vStr "hello") = ("date", .vStr "hello") :=
  ⟨date_key_only.1 "endDate" (.vInt 3) (by decide),
   date_key_only.2.2.2.1 "hello" rfl rfl rfl⟩

theorem dispatch_kind_ne_forbidden {r : Response} {ed : Option (List (String × Value))}
    {msg : Value} {e : FinErr} (h : dispatchError r ed msg = .typed e) :
    e.kind ≠ ErrKind.forbidden := by
  cases ed with
  | none =>
    unfold dispatchError at h
    split_ifs at h <;> (injection h with h2; subst h2; simp)
  | some kvs =>
    unfold dispatchError at h
    split_ifs at h <;> (injection h with h2; subst h2; simp)

/-- C3: the status-to-failure mapping never produces the forbidden
kind — `ForbiddenException` is declared in `exceptions.py` as the 403
failure but `_handle_response_errors` has no 403 branch, so a 403
response raises the generic `FinTabloException` instead. -/
theorem error_mapper_403_generic :
    handle_response_errors ⟨403, "x", some (.vObj [("message", .vStr "no")]), none⟩ =
      .typed ⟨.generic, .vStr "no", some 403, .vList [], none⟩ ∧
    (∀ (r : Response) (e : FinErr), handle_response_errors r = .typed e →
      e.kind ≠ ErrKind.forbidden) := by
  refine ⟨rfl, ?_⟩
  intro r e h
  rw [handle_response_errors] at h
  by_cases hlt : r.status < 400
  · rw [if_pos hlt] at h
    simp at h
  · rw [if_neg hlt] at h
    cases hj : r.jsonBody with
    | none =>
      rw [hj] at h
      exact dispatch_kind_ne_forbidden h
    | some v =>
      rw [hj] at h
      cases v <;> first
        | (exact dispatch_kind_ne_forbidden h)
        | (simp at h)

/-- C3 witness: the never-forbidden property applied to the concrete
403 response, whose typed failure is the generic kind. -/
theorem error_mapper_403_witness :
    handle_response_errors ⟨403, "x", some (.vObj [("message", .vStr "no")]), none⟩ =
      .typed ⟨.generic, .vStr "no", some 403, .vList [], none⟩ ∧
    (⟨.generic, .vStr "no", some 403, .vList [], none⟩ : FinErr).kind ≠ ErrKind.forbidden :=
  ⟨rfl, error_mapper_403_generic.2 ⟨403, "x", some (.vObj [("message", .vStr "no")]), none⟩
    ⟨.generic, .vStr "no", some 403, .vList [], none⟩ rfl⟩

theorem dispatch_ne_ok {r : Response} {ed : Option (List (String × Value))} {msg : Value} :
    dispatchError r ed msg ≠ .ok := by
  cases ed <;> unfold dispatchError <;> split_ifs <;> simp

theorem handle_ok_iff {r : Response} :
    handle_response_errors r = .ok ↔ r.status < 400 := by
  constructor
  · intro h
    by_contra hlt
    rw [handle_response_errors, if_neg hlt] at h
    cases hj : r.jsonBody with
    | none => rw [hj] at h; exact dispatch_ne_ok h
    | some v =>
      rw [hj] at h
      cases v <;> first
        | (exact dispatch_ne_ok h)
        | (simp at h)
  · intro h
    rw [handle_response_errors, if_pos h]

theorem httpCall_isOk_iff (r : Response) :
    (httpCall (.completed r)).isOk = true ↔
      r.status < 400 ∧ (r.text = "" ∨ r.jsonBody ≠ none) := by
  rw [httpCall]
  cases hh : handle_response_errors r with
  | ok =>
    have hlt : r.status < 400 := handle_ok_iff.mp hh
    by_cases ht : r.text = ""
    · rw [if_pos ht]
      simp [CallResult.isOk, hlt, ht]
    · rw [if_neg ht]
      cases hj : r.jsonBody with
      | none => simp [CallResult.isOk, hlt, ht, hj]
      | some v => simp [CallResult.isOk, hlt, ht, hj]
  | typed e =>
    have hge : ¬r.status < 400 := fun hlt => by
      rw [handle_ok_iff.mpr hlt] at hh; exact RaiseResult.noConfusion hh
    simp [CallResult.isOk, hge]
  | pyError m =>
    have hge : ¬r.status < 400 := fun hlt => by
      rw [handle_ok_iff.mpr hlt] at hh; exact RaiseResult.noConfusion hh
    simp [CallResult.isOk, hge]

/-- C4 (amended): `find_by_id` collapses every failure — network-level,
HTTP error status, and model-construction failure — into `none`, and
`delete` collapses every failure into `false`; `delete` returns `true`
exactly when the DELETE completes with a status below 400 (not only
2xx — redirect-range statuses also yield `true`) and a body that is
empty or parses as JSON. -/
theorem collapse_failures :
    (∀ (m : Model) (k : NetFailure), find_by_id m (.netFail k) = none) ∧
    (∀ (m : Model) (r : Response), 400 ≤ r.status → find_by_id m (.completed r) = none) ∧
    (∀ (m : Model) (o : Outcome) (v : Value) (s : String), httpCall o = .ok v →
      createModelValue m v = .error s → find_by_id m o = none) ∧
    (∀ k : NetFailure, delete (.netFail k) = false) ∧
    (∀ r : Response, 400 ≤ r.status → delete (.completed r) = false) ∧
    (∀ r : Response, delete (.completed r) = true ↔
      r.status < 400 ∧ (r.text = "" ∨ r.jsonBody ≠ none)) := by
  refine ⟨?_, ?_, ?_, ?_, ?_, ?_⟩
  · intro m k
    cases k <;> rfl
  · intro m r h
    have hno : (httpCall (.completed r)).isOk ≠ true := fun hok =>
      absurd ((httpCall_isOk_iff r).mp hok).1 (by omega)
    rw [find_by_id]
    cases hc : httpCall (.completed r) with
    | ok v => exact absurd (by rw [hc]; rfl) hno
    | raised e => rfl
    | pyRaised msg => rfl
  · intro m o v s hok herr
    have hstep : find_by_id m o =
        match createModelValue m v with
        | Except.ok e => some e
        | Except.error _ => none := by
      rw [find_by_id, hok]
    rw [hstep, herr]
  · intro k
    cases k <;> rfl
  · intro r h
    have := httpCall_isOk_iff r
    rw [delete]
    cases hb : (httpCall (.completed r)).isOk with
    | false => rfl
    | true => exact absurd ((this.mp hb).1) (by omega)
  · intro r
    rw [delete]
    exact httpCall_isOk_iff r

/-- C4 counterexample: a DELETE answered with the redirect-range status
304 (no body) raises nothing, so `delete` returns `true` although 304
is not a 2xx success status. -/
theorem delete_counterexample :
    delete (.completed ⟨304, "", none, none⟩) = true ∧ (304 < 200 ∨ 300 ≤ 304) :=
  ⟨rfl, Or.inr (by norm_num)⟩

/-- C4 witness: the collapse theorem applied to a timeout, a 404
response, a parse failure on a non-dict body, and a 204 delete. -/
theorem collapse_failures_witness :
    find_by_id categoryModel (.netFail .timeout) = none ∧
    find_by_id categoryModel (.completed ⟨404, "", none, none⟩) = none ∧
    find_by_id categoryModel (.completed ⟨200, "[]", some (.vList []), none⟩) = none ∧
    delete (.netFail .connection) = false ∧
    delete (.completed ⟨500, "", none, none⟩) = false ∧
    delete (.completed ⟨204, "", none, none⟩) = true :=
  ⟨collapse_failures.1 categoryModel .timeout,
   collapse_failures.2.1 categoryModel ⟨404, "", none, none⟩ (by norm_num),
   collapse_failures.2.2.1 categoryModel (.completed ⟨200, "[]", some (.vList []), none⟩)
     (.vList []) "AttributeError" rfl rfl,
   collapse_failures.2.2.2.1 .connection,
   collapse_failures.2.2.2.2.1 ⟨500, "", none, none⟩ (by norm_num),
   (collapse_failures.2.2.2.2.2 ⟨204, "", none, none⟩).mpr ⟨by norm_num, Or.inl rfl⟩⟩

theorem lookup_dictInsert_eq (d : List (String × Value)) (k : String) (v : Value) :
    lookupKV (dictInsert d (k, v)) k = some v := by
  induction d with
  | nil => simp [dictInsert, lookupKV]
  | cons p rest ih =>
    obtain ⟨k0, v0⟩ := p
    by_cases h0 : k0 = k
    · rw [dictInsert, if_pos (show k0 = (k, v).1 from h0), lookupKV_cons,
        if_pos (show ((k0 : String), v).1 = k from h0.symm ▸ rfl)]
    · rw [dictInsert, if_neg (show ¬(k0 = (k, v).1) from h0), lookupKV_cons,
        if_neg (show ¬(((k0 : String), v0).1 = k) from h0)]
      exact ih

theorem lookup_dictInsert_ne (d : List (String × Value)) {k' k : String} (v : Value)
    (hk : k' ≠ k) : lookupKV (dictInsert d (k', v)) k = lookupKV d k := by
  induction d with
  | nil => simp [dictInsert, lookupKV, hk]
  | cons p rest ih =>
    obtain ⟨k0, v0⟩ := p
    by_cases h0 : k0 = k'
    · have hk0 : ¬(k0 = k) := fun he => hk (h0.symm.trans he)
      rw [dictInsert, if_pos (show k0 = (k', v).1 from h0), lookupKV_cons,
        if_neg (show ¬(((k0 : String), v).1 = k) from hk0), lookupKV_cons,
        if_neg (show ¬(((k0 : String), v0).1 = k) from hk0)]
    · rw [dictInsert, if_neg (show ¬(k0 = (k', v).1) from h0), lookupKV_cons, lookupKV_cons]
      by_cases h1 : k0 = k
      · rw [if_pos (show ((k0 : String), v0).1 = k from h1),
          if_pos (show ((k0 : String), v0).1 = k from h1)]
      · rw [if_neg (show ¬(((k0 : String), v0).1 = k) from h1),
          if_neg (show ¬(((k0 : String), v0).1 = k) from h1)]
        exact ih

theorem lookup_skip_if (b : Bool) (d : List (String × Value)) (k' : String) (v : Value)
    (k : String) (hk : k' ≠ k) :
    lookupKV (if b = true then d else dictInsert d (k', v)) k = lookupKV d k := by
  cases b
  · rw [if_neg (by decide)]
    exact lookup_dictInsert_ne d v hk
  · rw [if_pos rfl]

/-- C6: `build_params` merges the filters into a fresh dict (last write
wins per key), adds `order` only when ordering clauses exist, `limit`
and `offset` only when set, `expand` only when non-empty, and the
chained example produces exactly
`group=income, order=date:desc, limit=10`. -/
theorem build_params_flattening :
    build_params (qLimit (qOrderBy (qFilter emptyQuery [("group", .vStr "income")])
        "date" false) 10) =
      [("group", .vStr "income"), ("order", .vStr "date:desc"), ("limit", .vInt 10)] ∧
    (∀ q : QueryState, q.ordering = [] → q.limitValue = none → q.offsetValue = none →
      q.expandFields = [] → build_params q = dictUpdate [] q.filters) ∧
    (∀ q : QueryState, q.ordering ≠ [] →
      lookupKV (build_params q) "order" = some (.vStr (joinComma q.ordering))) ∧
    (∀ (q : QueryState) (n : Int), q.limitValue = some n →
      lookupKV (build_params q) "limit" = some (.vInt n)) ∧
    (∀ (q : QueryState) (n : Int), q.offsetValue = some n →
      lookupKV (build_params q) "offset" = some (.vInt n)) ∧
    (∀ q : QueryState, q.expandFields ≠ [] →
      lookupKV (build_params q) "expand" = some (.vStr (joinComma q.expandFields))) ∧
    (∀ (d : List (String × Value)) (k : String) (v w : Value),
      lookupKV (dictInsert (dictInsert d (k, v)) (k, w)) k = some w) ∧
    (∀ q : QueryState, q.limitValue = none → ∀ v,
      lookupKV (build_params q) "limit" = some v →
      lookupKV (dictUpdate [] q.filters) "limit" = some v) := by
  refine ⟨rfl, ?_, ?_, ?_, ?_, ?_, ?_, ?_⟩
  · intro q h1 h2 h3 h4
    rw [build_params, h1, h2, h3, h4]
    rfl
  · intro q h
    obtain ⟨fs, ord, lim, off, exp⟩ := q
    have hord : ord.isEmpty = false := by
      cases ord
      · exact absurd rfl h
      · rfl
    rw [build_params]
    simp only [hord, Bool.false_eq_true, if_false]
    rcases exp with _ | ⟨e0, exs⟩ <;> rcases lim with _ | ln <;> rcases off with _ | fn <;>
      simp only [List.isEmpty_cons, List.isEmpty_nil, Bool.false_eq_true, if_true,
        if_false] <;>
      first
        | exact lookup_dictInsert_eq _ _ _
        | (repeat rw [lookup_dictInsert_ne _ _ (by decide)]
           exact lookup_dictInsert_eq _ _ _)
  · intro q n h
    obtain ⟨fs, ord, lim, off, exp⟩ := q
    replace h : lim = some n := h
    subst h
    rw [build_params]
    rcases exp with _ | ⟨e0, exs⟩ <;> rcases off with _ | fn <;>
      simp only [List.isEmpty_cons, List.isEmpty_nil, Bool.false_eq_true, if_true,
        if_false] <;>
      first
        | exact lookup_dictInsert_eq _ _ _
        | (repeat rw [lookup_dictInsert_ne _ _ (by decide)]
           exact lookup_dictInsert_eq _ _ _)
  · intro q n h
    obtain ⟨fs, ord, lim, off, exp⟩ := q
    replace h : off = some n := h
    subst h
    rw [build_params]
    rcases exp with _ | ⟨e0, exs⟩ <;>
      simp only [List.isEmpty_cons, List.isEmpty_nil, Bool.false_eq_true, if_true,
        if_false] <;>
      first
        | exact lookup_dictInsert_eq _ _ _
        | (repeat rw [lookup_dictInsert_ne _ _ (by decide)]
           exact lookup_dictInsert_eq _ _ _)
  · intro q h
    obtain ⟨fs, ord, lim, off, exp⟩ := q
    have hexp : exp.isEmpty = false := by
      cases exp
      · exact absurd rfl h
      · rfl
    rw [build_params]
    simp only [hexp, Bool.false_eq_true, if_false]
    exact lookup_dictInsert_eq _ _ _
  · intro d k v w
    induction d with
    | nil => simp [dictInsert, lookupKV]
    | cons p rest ih =>
      obtain ⟨k0, v0⟩ := p
      by_cases h0 : k0 = k
      · simp [dictInsert, h0, lookupKV_cons]
      · simp [dictInsert, h0, lookupKV_cons, ih]
  · intro q hlim v hv
    obtain ⟨fs, ord, lim, off, exp⟩ := q
    replace hlim : lim = none := hlim
    subst hlim
    rw [build_params] at hv
    rcases exp with _ | ⟨e0, exs⟩ <;> rcases off with _ | fn <;> rcases ord with _ | ⟨o0, os⟩ <;>
      simp only [List.isEmpty_cons, List.isEmpty_nil, Bool.false_eq_true, if_true,
        if_false] at hv <;>
      (repeat rw [lookup_dictInsert_ne _ _ (by decide)] at hv) <;>
      exact hv

/-- C6 witness: the general conjuncts applied to a concrete query. -/
theorem build_params_witness :
    lookupKV (build_params ⟨[("a", .vStr "b")], ["date:desc"], some 10, some 5, ["x"]⟩)
        "order" = some (.vStr "date:desc") ∧
    lookupKV (build_params ⟨[("a", .vStr "b")], ["date:desc"], some 10, some 5, ["x"]⟩)
        "limit" = some (.vInt 10) ∧
    lookupKV (build_params ⟨[("a", .vStr "b")], ["date:desc"], some 10, some 5, ["x"]⟩)
        "offset" = some (.vInt 5) ∧
    lookupKV (build_params ⟨[("a", .vStr "b")], ["date:desc"], some 10, some 5, ["x"]⟩)
        "expand" = some (.vStr "x") ∧
    build_params ⟨[("k", .vInt 1)], [], none, none, []⟩ =
      dictUpdate [] [("k", .vInt 1)] :=
  ⟨build_params_flattening.2.2.1 _ (by simp),
   build_params_flattening.2.2.2.1 _ 10 rfl,
   build_params_flattening.2.2.2.2.1 _ 5 rfl,
   build_params_flattening.2.2.2.2.2.1 _ (by simp),
   build_params_flattening.2.1 _ rfl rfl rfl rfl⟩

theorem retryLoop_cons (m : String) (s : Nat) (rest : List Nat) (b : Nat) :
    retryLoop m (s :: rest) b =
      if retryAllowedMethods.contains m && statusForcelist.contains s then
        match b with
        | 0 => (none, 1)
        | b' + 1 => ((retryLoop m rest b').1, (retryLoop m rest b').2 + 1)
      else (some s, 1) := by
  rw [retryLoop.eq_def]

theorem retry_attempts_le (m : String) :
    ∀ (script : List Nat) (b : Nat), (retryLoop m script b).2 ≤ b + 1 := by
  intro script
  induction script with
  | nil => intro b; simp [retryLoop]
  | cons s rest ih =>
    intro b
    rw [retryLoop_cons]
    split_ifs
    · cases b with
      | zero => simp
      | succ b' =>
        have := ih b'
        simp only
        omega
    · simp

/-- C7 (amended): the installed urllib3 retry policy retries idempotent
read methods only on the statuses 429, 500, 502, 503, 504 (not on every
5xx — 501 or 505 raise immediately), with up to 3 retries after the
first attempt (at most 4 attempts in total); a GET answered 503, 503,
200 succeeds with exactly 3 attempts, and non-idempotent methods are
never retried, so a POST answered 503 fails after exactly 1 attempt. -/
theorem retry_policy :
    retryLoop "GET" [503, 503, 200] defaultMaxRetries = (some 200, 3) ∧
    (∀ rest : List Nat, retryLoop "POST" (503 :: rest) defaultMaxRetries = (some 503, 1)) ∧
    (∀ m, m ∈ ["POST", "PUT", "PATCH", "DELETE"] →
      ∀ (s : Nat) (rest : List Nat) (b : Nat), retryLoop m (s :: rest) b = (some s, 1)) ∧
    (∀ s, s ∈ statusForcelist → ∀ (rest : List Nat) (b : Nat),
      retryLoop "GET" (s :: rest) (b + 1) =
        ((retryLoop "GET" rest b).1, (retryLoop "GET" rest b).2 + 1)) ∧
    (∀ (s : Nat) (rest : List Nat) (b : Nat), statusForcelist.contains s = false →
      retryLoop "GET" (s :: rest) b = (some s, 1)) ∧
    (∀ script : List Nat,
      (retryLoop "GET" script defaultMaxRetries).2 ≤ defaultMaxRetries + 1) := by
  refine ⟨rfl, fun rest => rfl, ?_, ?_, ?_, ?_⟩
  · intro m hm s rest b
    fin_cases hm <;> rw [retryLoop_cons] <;>
      first
        | rw [show retryAllowedMethods.contains "POST" = false from rfl, Bool.false_and,
            if_neg (by decide)]
        | rw [show retryAllowedMethods.contains "PUT" = false from rfl, Bool.false_and,
            if_neg (by decide)]
        | rw [show retryAllowedMethods.contains "PATCH" = false from rfl, Bool.false_and,
            if_neg (by decide)]
        | rw [show retryAllowedMethods.contains "DELETE" = false from rfl, Bool.false_and,
            if_neg (by decide)]
  · intro s hs rest b
    rw [retryLoop_cons]
    fin_cases hs <;> rfl
  · intro s rest b hs
    rw [retryLoop_cons, show retryAllowedMethods.contains "GET" = true from rfl,
      Bool.true_and, hs, if_neg (by decide)]
  · intro script
    exact retry_attempts_le "GET" script defaultMaxRetries

/-- C7 counterexample: 501 is a 5xx status but is not in the forcelist,
so a GET answered 501 then 200 fails on the first attempt with no retry;
and a GET answered 503 three times then 200 succeeds after 4 attempts,
so the policy is 3 retries, not 3 total attempts. -/
theorem retry_policy_counterexample :
    retryLoop "GET" [501, 200] defaultMaxRetries = (some 501, 1) ∧
    retryLoop "GET" [503, 503, 503, 200] defaultMaxRetries = (some 200, 4) :=
  ⟨rfl, rfl⟩

/-- C7 witness: the amended retry policy applied to concrete scripts. -/
theorem retry_policy_witness :
    retryLoop "PUT" (503 :: [200]) 3 = (some 503, 1) ∧
    retryLoop "GET" (429 :: [200]) (2 + 1) =
      ((retryLoop "GET" [200] 2).1, (retryLoop "GET" [200] 2).2 + 1) ∧
    retryLoop "GET" (418 :: [200]) 3 = (some 418, 1) :=
  ⟨retry_policy.2.2.1 "PUT" (by simp) 503 [200] 3,
   retry_policy.2.2.2.1 429 (by simp [statusForcelist]) [200] 2,
   retry_policy.2.2.2.2.1 418 [200] 3 rfl⟩

theorem dispatch_some_typed (r : Response) (kvs : List (String × Value)) (msg : Value) :
    ∃ e, dispatchError r (some kvs) msg = .typed e ∧ e.message = msg ∧
      e.statusCode = some r.status := by
  unfold dispatchError
  split_ifs <;> exact ⟨_, rfl, rfl, rfl⟩

theorem dispatch_none_typed (r : Response) (h422 : r.status ≠ 422) (msg : Value) :
    ∃ e, dispatchError r none msg = .typed e ∧ e.message = msg ∧
      e.statusCode = some r.status := by
  unfold dispatchError
  split_ifs <;> exact ⟨_, rfl, rfl, rfl⟩

/-- C8 (amended): a typed failure's message comes from the body's
`message` field when the body parses as a JSON object (defaulting to
the literal `"Unknown error"` — not the raw text — when that object has
no `message` field); the raw response text is used only when the body
does not parse as JSON, and the literal `HTTP <status>` only when, in
addition, the text is empty (for unparsable bodies the 422 branch fails
with an unbound-variable error instead of a typed failure); every typed
failure carries the status code. -/
theorem failure_message_fallback :
    (∀ (r : Response) (kvs : List (String × Value)) (v : Value), 400 ≤ r.status →
      r.jsonBody = some (.vObj kvs) → lookupKV kvs "message" = some v →
      ∃ e, handle_response_errors r = .typed e ∧ e.message = v ∧
        e.statusCode = some r.status) ∧
    (∀ (r : Response) (kvs : List (String × Value)), 400 ≤ r.status →
      r.jsonBody = some (.vObj kvs) → lookupKV kvs "message" = none →
      ∃ e, handle_response_errors r = .typed e ∧ e.message = .vStr "Unknown error" ∧
        e.statusCode = some r.status) ∧
    (∀ r : Response, 400 ≤ r.status → r.jsonBody = none → r.text ≠ "" →
      r.status ≠ 422 →
      ∃ e, handle_response_errors r = .typed e ∧ e.message = .vStr r.text ∧
        e.statusCode = some r.status) ∧
    (∀ r : Response, 400 ≤ r.status → r.jsonBody = none → r.text = "" →
      r.status ≠ 422 →
      ∃ e, handle_response_errors r = .typed e ∧
        e.message = .vStr ("HTTP " ++ toString r.status) ∧
        e.statusCode = some r.status) := by
  have handle_obj : ∀ (r : Response) (kvs : List (String × Value)), ¬r.status < 400 →
      r.jsonBody = some (.vObj kvs) →
      handle_response_errors r =
        dispatchError r (some kvs)
          ((lookupKV kvs "message").getD (.vStr "Unknown error")) := by
    intro r kvs hge hj
    rw [handle_response_errors, if_neg hge, hj]
  have handle_none : ∀ r : Response, ¬r.status < 400 → r.jsonBody = none →
      handle_response_errors r =
        dispatchError r none
          (.vStr (if r.text = "" then "HTTP " ++ toString r.status else r.text)) := by
    intro r hge hj
    rw [handle_response_errors, if_neg hge, hj]
  refine ⟨?_, ?_, ?_, ?_⟩
  · intro r kvs v hge hj hmsg
    rw [handle_obj r kvs (by omega) hj, hmsg, Option.getD_some]
    exact dispatch_some_typed r kvs v
  · intro r kvs hge hj hmsg
    rw [handle_obj r kvs (by omega) hj, hmsg, Option.getD_none]
    exact dispatch_some_typed r kvs (.vStr "Unknown error")
  · intro r hge hj ht h422
    rw [handle_none r (by omega) hj, if_neg ht]
    exact dispatch_none_typed r h422 (.vStr r.text)
  · intro r hge hj ht h422
    rw [handle_none r (by omega) hj, if_pos ht]
    exact dispatch_none_typed r h422 (.vStr ("HTTP " ++ toString r.status))

/-- C8 counterexample: a 400 response whose body parses as a JSON
object without a `message` field yields the message `"Unknown error"`,
not the raw (non-empty) response text as the claim's fallback chain
requires. -/
theorem failure_message_counterexample :
    handle_response_errors ⟨400, "\x7b\x7d", some (.vObj []), none⟩ =
      .typed ⟨.generic, .vStr "Unknown error", some 400, .vList [], none⟩ ∧
    ("Unknown error" : String) ≠ "\x7b\x7d" :=
  ⟨rfl, by decide⟩

/-- C8 witness: the amended fallback chain applied to concrete 400/503
responses for each of the four message sources. -/
theorem failure_message_witness :
    (∃ e, handle_response_errors ⟨400, "x", some (.vObj [("message", .vStr "bad")]), none⟩ =
      .typed e ∧ e.message = .vStr "bad" ∧ e.statusCode = some 400) ∧
    (∃ e, handle_response_errors ⟨400, "\x7b\x7d", some (.vObj []), none⟩ =
      .typed e ∧ e.message = .vStr "Unknown error" ∧ e.statusCode = some 400) ∧
    (∃ e, handle_response_errors ⟨503, "oops", none, none⟩ =
      .typed e ∧ e.message = .vStr "oops" ∧ e.statusCode = some 503) ∧
    (∃ e, handle_response_errors ⟨503, "", none, none⟩ =
      .typed e ∧ e.message = .vStr ("HTTP " ++ toString 503) ∧ e.statusCode = some 503) :=
  ⟨failure_message_fallback.1 ⟨400, "x", some (.vObj [("message", .vStr "bad")]), none⟩
      [("message", .vStr "bad")] (.vStr "bad") (by norm_num) rfl rfl,
   failure_message_fallback.2.1 ⟨400, "\x7b\x7d", some (.vObj []), none⟩ [] (by norm_num)
      rfl rfl,
   failure_message_fallback.2.2.1 ⟨503, "oops", none, none⟩ (by norm_num) rfl
      (by decide) (by decide),
   failure_message_fallback.2.2.2 ⟨503, "", none, none⟩ (by norm_num) rfl rfl (by decide)⟩

end Fintablo
